import Mathlib

/-!
Shallow embedding of the molecule-editing core of the Illustrious sketcher
(src/src/renderer/model.ts: the Atom/Bond/Molecule data model and the React
App handlers `handleCanvasClick`, `handleAtomMouseDown`, `handleAtomMouseUp`,
`handleCanvasMouseMove`, `handleCanvasMouseUp`, together with the helpers
`getAtomValence`, `getOrderedBondAngle`, `MAX_VALENCE`, `degToRad`).

JS `Record<string, T>` objects are embedded as insertion-ordered association
lists `List (String × T)`; `Object.values` is `values`, property lookup is
`List.lookup`, spread-update `{...r, [k]: v}` is `recordSet`, and
`delete r[k]` is `recordDelete`.  Coordinates are real numbers;
`Math.hypot`, `Math.atan2`, `Math.cos`, `Math.sin` are the exact real
functions.  A JS runtime `TypeError` (property access on `undefined`) is
embedded by returning `none` from a handler of result type `Option AppState`.
Fresh identifiers produced by `generateId` are passed to the handlers as
explicit arguments.
-/

namespace Illustrious

open Classical

/-- Atom record: `interface Atom { id; x; y; element }`. -/
structure Atom where
  id : String
  x : ℝ
  y : ℝ
  element : String

/-- Bond record: `interface Bond { id; beginAtomId; endAtomId; order }`.
The TS type of `order` is the union `1 | 2 | 3`; it is embedded as `ℕ`. -/
structure Bond where
  id : String
  beginAtomId : String
  endAtomId : String
  order : ℕ

/-- Molecule record: `interface Molecule { atoms: Record<string, Atom>;
bonds: Record<string, Bond> }`, records as insertion-ordered assoc lists. -/
structure Molecule where
  atoms : List (String × Atom)
  bonds : List (String × Bond)

/-- Embedding of `Object.values(record)`. -/
def values {α : Type} (r : List (String × α)) : List α :=
  r.map Prod.snd

/-- Embedding of `Object.keys(record)`. -/
def keys {α : Type} (r : List (String × α)) : List String :=
  r.map Prod.fst

/-- Embedding of the JS spread update `{ ...r, [k]: v }`: if the key is
already present its value is replaced in place, otherwise the new entry is
appended at the end (JS insertion order of string keys). -/
def recordSet {α : Type} (r : List (String × α)) (k : String) (v : α) :
    List (String × α) :=
  if r.any (fun p => p.1 == k) then
    r.map (fun p => if p.1 == k then (k, v) else p)
  else
    r ++ [(k, v)]

/-- Embedding of `delete r[k]` on a fresh copy of the record. -/
def recordDelete {α : Type} (r : List (String × α)) (k : String) :
    List (String × α) :=
  r.filter (fun p => p.1 != k)

/-- Embedding of `Array.prototype.find` with a (classically decidable)
predicate: first element satisfying `p`, if any. -/
noncomputable def findP {α : Type} (p : α → Prop) : List α → Option α
  | [] => none
  | a :: as => if p a then some a else findP p as

/-- Embedding of `Math.hypot(x, y)`. -/
noncomputable def hypot (x y : ℝ) : ℝ :=
  Real.sqrt (x ^ 2 + y ^ 2)

/-- Embedding of `Math.atan2(y, x)`: the argument of the complex number
`x + y*i`, in `(-π, π]`. -/
noncomputable def atan2 (y x : ℝ) : ℝ :=
  Complex.arg ⟨x, y⟩

/-- Source: `const MAX_VALENCE: Record<string, number> = { 'C': 4, 'N': 3,
'O': 2, 'S': 2, 'P': 3, 'Cl': 1, 'Br': 1, 'I': 1, 'F': 1, 'H': 1 }`. -/
def MAX_VALENCE (element : String) : Option ℕ :=
  if element = "C" then some 4
  else if element = "N" then some 3
  else if element = "O" then some 2
  else if element = "S" then some 2
  else if element = "P" then some 3
  else if element = "Cl" then some 1
  else if element = "Br" then some 1
  else if element = "I" then some 1
  else if element = "F" then some 1
  else if element = "H" then some 1
  else none

/-- Source idiom `MAX_VALENCE[element] || 4` (every table entry is a
positive number, so the falsy-default `||` is exactly the missing-key
default). -/
def maxValence (element : String) : ℕ :=
  (MAX_VALENCE element).getD 4

/-- Source: `const BOND_LENGTH = 40`. -/
def BOND_LENGTH : ℝ := 40

/-- Source: `const DRAG_CLICK_THRESHOLD = 5`. -/
def DRAG_CLICK_THRESHOLD : ℝ := 5

/-- Source: `getAtomValence(atomId, molecule)`: sum of the orders of all
bonds whose begin or end endpoint is `atomId`. -/
def getAtomValence (atomId : String) (molecule : Molecule) : ℕ :=
  ((values molecule.bonds).filter
      (fun bond => bond.beginAtomId == atomId || bond.endAtomId == atomId)).foldl
    (fun sum bond => sum + bond.order) 0

/-- Source: `degToRad(degrees)`. -/
noncomputable def degToRad (degrees : ℝ) : ℝ :=
  degrees * Real.pi / 180

/-- Source: `getOrderedBondAngle(atom, molecule)` (model.ts lines 47-63):
angle for the next grown bond, computed as the direction of the first
connected bond plus a fixed per-count offset from `[0, 120, 240, 60]`
degrees (or `(60*(n+1)) % 360` degrees once four or more bonds exist). -/
noncomputable def getOrderedBondAngle (atom : Atom) (molecule : Molecule) : ℝ :=
  match (values molecule.bonds).filter
      (fun bond => bond.beginAtomId == atom.id || bond.endAtomId == atom.id) with
  | [] => 0
  | refBond :: rest =>
    let otherId := if refBond.beginAtomId == atom.id
      then refBond.endAtomId else refBond.beginAtomId
    match List.lookup otherId molecule.atoms with
    | none => 0
    | some otherAtom =>
      let refAngle := atan2 (otherAtom.y - atom.y) (otherAtom.x - atom.x)
      let n := rest.length + 1
      if 4 ≤ n then refAngle + degToRad ((((60 * (n + 1)) % 360 : ℕ) : ℝ))
      else refAngle + degToRad ((([0, 120, 240, 60].getD n 0 : ℕ) : ℝ))

/-- Component of the gesture session: `mouseDownAtom` state
`{ atomId, x, y }`. -/
structure MouseDownInfo where
  atomId : String
  x : ℝ
  y : ℝ

/-- Full state of the `App` component: the `useState` hooks
`molecule`, `mode`, `element`, `bondOrder`, `dragStartAtomId`, `dragPos`,
`mouseDownAtom`, `wasDrag`. -/
structure AppState where
  molecule : Molecule
  mode : String
  element : String
  bondOrder : ℕ
  dragStartAtomId : Option String
  dragPos : Option (ℝ × ℝ)
  mouseDownAtom : Option MouseDownInfo
  wasDrag : Bool

/-- Source: `clearDragState()`: resets `mouseDownAtom`, `dragStartAtomId`
and `dragPos`. -/
def clearDragState (s : AppState) : AppState :=
  { s with mouseDownAtom := none, dragStartAtomId := none, dragPos := none }

/-- Initial state of the `App` component (`useState` initial values). -/
def initState : AppState :=
  { molecule := { atoms := [], bonds := [] }
    mode := "atom"
    element := "C"
    bondOrder := 1
    dragStartAtomId := none
    dragPos := none
    mouseDownAtom := none
    wasDrag := false }

/-- Distance from the click point to a bond used by the erase-mode bond
hit-test inside `handleCanvasClick` (model.ts lines 128-139): projection of
the click onto the bond segment with the parameter clamped to `[0, 1]`,
then the Euclidean distance to the projected point.  Returns `none` when an
endpoint id does not resolve (the JS code would throw a `TypeError` on
`a1.x` / `a2.x`). -/
noncomputable def bondHitDist (molecule : Molecule) (x y : ℝ) (bond : Bond) :
    Option ℝ :=
  match List.lookup bond.beginAtomId molecule.atoms,
      List.lookup bond.endAtomId molecule.atoms with
  | some a1, some a2 =>
    let dx := a2.x - a1.x
    let dy := a2.y - a1.y
    let lengthSq := dx * dx + dy * dy
    let t := max 0 (min 1 (((x - a1.x) * dx + (y - a1.y) * dy) / lengthSq))
    let projX := a1.x + t * dx
    let projY := a1.y + t * dy
    some (hypot (x - projX) (y - projY))
  | _, _ => none

/-- Sequential `Array.prototype.find` of the erase-mode bond hit-test:
outer `none` embeds the JS `TypeError` thrown on a dangling endpoint,
`some none` is "no bond found", `some (some b)` is the first bond whose
segment distance is below the radius 8. -/
noncomputable def findBondToErase (molecule : Molecule) (x y : ℝ) :
    List Bond → Option (Option Bond)
  | [] => some none
  | bond :: rest =>
    match bondHitDist molecule x y bond with
    | none => none
    | some dist =>
      if dist < 8 then some (some bond) else findBondToErase molecule x y rest

/-- Source: `handleCanvasClick(x, y)` (model.ts lines 85-150).  `newId` is
the identifier produced by `generateId("atom")` for the possibly-added
atom.  Result `none` embeds a thrown `TypeError` (only possible in the
erase-mode bond hit-test on a dangling bond). -/
noncomputable def handleCanvasClick (s : AppState) (x y : ℝ) (newId : String) :
    Option AppState :=
  if s.wasDrag then some { s with wasDrag := false }
  else if s.mode = "atom" then
    if s.dragStartAtomId.isSome then some s
    else
      match findP (fun atom => hypot (atom.x - x) (atom.y - y) < 18)
          (values s.molecule.atoms) with
      | some _ => some s
      | none =>
        some { s with molecule :=
          { atoms := recordSet s.molecule.atoms newId
              { id := newId, x := x, y := y, element := s.element }
            bonds := s.molecule.bonds } }
  else if s.mode = "erase" then
    match findP (fun atom => hypot (atom.x - x) (atom.y - y) < 16)
        (values s.molecule.atoms) with
    | some atomToErase =>
      some { s with molecule :=
        { atoms := recordDelete s.molecule.atoms atomToErase.id
          bonds := s.molecule.bonds.filter (fun p =>
            p.2.beginAtomId != atomToErase.id && p.2.endAtomId != atomToErase.id) } }
    | none =>
      match findBondToErase s.molecule x y (values s.molecule.bonds) with
      | none => none
      | some none => some s
      | some (some bondToErase) =>
        some { s with molecule :=
          { atoms := s.molecule.atoms
            bonds := recordDelete s.molecule.bonds bondToErase.id } }
  else some s

/-- Source: `handleAtomMouseDown(atomId, x, y)` (model.ts lines 152-158). -/
def handleAtomMouseDown (s : AppState) (atomId : String) (x y : ℝ) : AppState :=
  if s.mode = "atom" then
    { s with mouseDownAtom := some { atomId := atomId, x := x, y := y }
             dragStartAtomId := some atomId
             dragPos := some (x, y) }
  else s

/-- Source: `handleCanvasMouseMove(x, y)` (model.ts lines 193-195). -/
def handleCanvasMouseMove (s : AppState) (x y : ℝ) : AppState :=
  if s.dragStartAtomId.isSome ∧ s.mode = "atom" then
    { s with dragPos := some (x, y) }
  else s

/-- Source: `handleAtomMouseUp(atomId, x, y)` (model.ts lines 160-191): the
click-grow commit.  `newAtomId` and `newBondId` are the identifiers
produced by `generateId`.  Result `none` embeds the `TypeError` thrown on
`clickedAtom.id` when `molecule.atoms[atomId]` is `undefined`. -/
noncomputable def handleAtomMouseUp (s : AppState) (atomId : String) (x y : ℝ)
    (newAtomId newBondId : String) : Option AppState :=
  match s.mouseDownAtom with
  | some md =>
    if s.mode = "atom" ∧ md.atomId = atomId then
      if hypot (x - md.x) (y - md.y) ≤ DRAG_CLICK_THRESHOLD then
        match List.lookup atomId s.molecule.atoms with
        | none => none
        | some clickedAtom =>
          let currValence := getAtomValence clickedAtom.id s.molecule
          let maxVal := maxValence clickedAtom.element
          if currValence + s.bondOrder > maxVal then some (clearDragState s)
          else
            let angle := getOrderedBondAngle clickedAtom s.molecule
            let newX := clickedAtom.x + Real.cos angle * BOND_LENGTH
            let newY := clickedAtom.y + Real.sin angle * BOND_LENGTH
            let newAtom : Atom :=
              { id := newAtomId, x := newX, y := newY, element := s.element }
            let newBond : Bond :=
              { id := newBondId, beginAtomId := clickedAtom.id,
                endAtomId := newAtomId, order := s.bondOrder }
            some (clearDragState { s with molecule :=
              { atoms := recordSet s.molecule.atoms newAtomId newAtom
                bonds := recordSet s.molecule.bonds newBondId newBond } })
      else some (clearDragState s)
    else some (clearDragState s)
  | none => some (clearDragState s)

/-- Source: `handleCanvasMouseUp(x, y)` (model.ts lines 197-275): the
drag-connect / drag-extend commit. -/
noncomputable def handleCanvasMouseUp (s : AppState) (x y : ℝ)
    (newAtomId newBondId : String) : AppState :=
  match s.dragStartAtomId with
  | none => clearDragState s
  | some dragStartAtomId =>
    if s.mode = "atom" then
      let s1 := { s with wasDrag := true }
      match List.lookup dragStartAtomId s.molecule.atoms with
      | none => clearDragState s1
      | some originAtom =>
        let currValence := getAtomValence originAtom.id s.molecule
        let maxVal := maxValence originAtom.element
        if currValence + s.bondOrder > maxVal then clearDragState s1
        else
          let dx := x - originAtom.x
          let dy := y - originAtom.y
          if (match s.mouseDownAtom with
              | some md => md.atomId = dragStartAtomId ∧
                  hypot (md.x - x) (md.y - y) ≤ DRAG_CLICK_THRESHOLD
              | none => False) then clearDragState s1
          else
            match findP (fun atom => ¬ atom.id = dragStartAtomId ∧
                hypot (atom.x - x) (atom.y - y) < 18)
                (values s.molecule.atoms) with
            | some targetAtom =>
              let alreadyBonded := (values s.molecule.bonds).any (fun bond =>
                (bond.beginAtomId == dragStartAtomId &&
                  bond.endAtomId == targetAtom.id) ||
                (bond.endAtomId == dragStartAtomId &&
                  bond.beginAtomId == targetAtom.id))
              let val2 := getAtomValence targetAtom.id s.molecule
              let maxVal2 := maxValence targetAtom.element
              if alreadyBonded = false ∧ currValence + s.bondOrder ≤ maxVal ∧
                  val2 + s.bondOrder ≤ maxVal2 then
                clearDragState { s1 with molecule :=
                  { atoms := s.molecule.atoms
                    bonds := recordSet s.molecule.bonds newBondId
                      { id := newBondId, beginAtomId := dragStartAtomId,
                        endAtomId := targetAtom.id, order := s.bondOrder } } }
              else clearDragState s1
            | none =>
              let angle := atan2 dy dx
              let newX := originAtom.x + Real.cos angle * BOND_LENGTH
              let newY := originAtom.y + Real.sin angle * BOND_LENGTH
              let newAtom : Atom :=
                { id := newAtomId, x := newX, y := newY, element := s.element }
              let newBond : Bond :=
                { id := newBondId, beginAtomId := dragStartAtomId,
                  endAtomId := newAtomId, order := s.bondOrder }
              clearDragState { s1 with molecule :=
                { atoms := recordSet s.molecule.atoms newAtomId newAtom
                  bonds := recordSet s.molecule.bonds newBondId newBond } }
    else clearDragState s

/-! ### Basic lemmas about the record embedding -/

theorem keys_append {α : Type} (r1 r2 : List (String × α)) :
    keys (r1 ++ r2) = keys r1 ++ keys r2 :=
  List.map_append _ _ _

theorem values_append {α : Type} (r1 r2 : List (String × α)) :
    values (r1 ++ r2) = values r1 ++ values r2 :=
  List.map_append _ _ _

theorem recordSet_fresh {α : Type} {r : List (String × α)} {k : String}
    (v : α) (h : k ∉ keys r) : recordSet r k v = r ++ [(k, v)] := by
  unfold recordSet
  rw [if_neg]
  simp only [List.any_eq_true, beq_iff_eq, not_exists, not_and]
  intro p hp hpk
  exact h (hpk ▸ List.mem_map_of_mem Prod.fst hp)

theorem lookup_mem {α : Type} {r : List (String × α)} {k : String} {v : α}
    (h : List.lookup k r = some v) : (k, v) ∈ r := by
  induction r with
  | nil => simp [List.lookup] at h
  | cons p t ih =>
    rw [List.lookup_cons] at h
    by_cases hk : (k == p.1)
    · simp only [hk] at h
      obtain ⟨k1, v1⟩ := p
      simp only [beq_iff_eq] at hk
      cases h
      exact hk ▸ List.mem_cons_self _ _
    · simp only [Bool.not_eq_true] at hk
      simp only [hk] at h
      exact List.mem_cons_of_mem _ (ih h)

theorem mem_keys_of_lookup {α : Type} {r : List (String × α)} {k : String}
    {v : α} (h : List.lookup k r = some v) : k ∈ keys r :=
  List.mem_map_of_mem Prod.fst (lookup_mem h)

theorem mem_values_of_lookup {α : Type} {r : List (String × α)} {k : String}
    {v : α} (h : List.lookup k r = some v) : v ∈ values r :=
  List.mem_map_of_mem Prod.snd (lookup_mem h)

theorem entry_unique {α : Type} {r : List (String × α)}
    (hnd : (keys r).Nodup) {p q : String × α} (hp : p ∈ r) (hq : q ∈ r)
    (hk : p.1 = q.1) : p = q := by
  induction r with
  | nil => cases hp
  | cons a t ih =>
    rw [keys, List.map_cons, List.nodup_cons] at hnd
    cases hp with
    | head =>
      cases hq with
      | head => rfl
      | tail _ hq' =>
        exact absurd (hk ▸ List.mem_map_of_mem Prod.fst hq') hnd.1
    | tail _ hp' =>
      cases hq with
      | head =>
        exact absurd (hk ▸ List.mem_map_of_mem Prod.fst hp') hnd.1
      | tail _ hq' => exact ih hnd.2 hp' hq'

theorem findP_eq_some {α : Type} {p : α → Prop} {l : List α} {a : α}
    (h : findP p l = some a) : a ∈ l ∧ p a := by
  induction l with
  | nil => simp [findP] at h
  | cons x xs ih =>
    rw [findP] at h
    by_cases hx : p x
    · rw [if_pos hx] at h
      cases h
      exact ⟨List.mem_cons_self _ _, hx⟩
    · rw [if_neg hx] at h
      obtain ⟨hmem, hpa⟩ := ih h
      exact ⟨List.mem_cons_of_mem _ hmem, hpa⟩

theorem findP_of_forall {α : Type} {p : α → Prop} {l : List α}
    (h : ∀ a ∈ l, ¬ p a) : findP p l = none := by
  induction l with
  | nil => rfl
  | cons x xs ih =>
    rw [findP, if_neg (h x (List.mem_cons_self _ _))]
    exact ih fun a ha => h a (List.mem_cons_of_mem _ ha)

/-! ### Valence accounting lemmas -/

theorem foldl_order (l : List Bond) (n : ℕ) :
    l.foldl (fun sum bond => sum + bond.order) n = n + (l.map Bond.order).sum := by
  induction l generalizing n with
  | nil => simp
  | cons b t ih => simp [List.foldl_cons, ih, Nat.add_assoc]

theorem getAtomValence_def (atomId : String) (m : Molecule) :
    getAtomValence atomId m =
      (((values m.bonds).filter (fun bond =>
        bond.beginAtomId == atomId || bond.endAtomId == atomId)).map
          Bond.order).sum := by
  unfold getAtomValence
  rw [foldl_order, Nat.zero_add]

theorem getAtomValence_bonds_only (atomId : String) (A A2 : List (String × Atom))
    (B : List (String × Bond)) :
    getAtomValence atomId ⟨A, B⟩ = getAtomValence atomId ⟨A2, B⟩ := rfl

theorem valence_append (atomId : String) (A : List (String × Atom))
    (B : List (String × Bond)) (k : String) (b : Bond) :
    getAtomValence atomId ⟨A, B ++ [(k, b)]⟩ =
      getAtomValence atomId ⟨A, B⟩ +
        if b.beginAtomId = atomId ∨ b.endAtomId = atomId then b.order else 0 := by
  simp only [getAtomValence_def, values, List.map_append, List.filter_append]
  by_cases h : b.beginAtomId = atomId ∨ b.endAtomId = atomId
  · rw [if_pos h]
    have : (List.filter (fun bond =>
        bond.beginAtomId == atomId || bond.endAtomId == atomId)
          (List.map Prod.snd [(k, b)])) = [b] := by
      simp only [List.map_cons, List.map_nil, List.filter]
      have : (b.beginAtomId == atomId || b.endAtomId == atomId) = true := by
        simpa using h
      rw [this]
    rw [this]
    simp
  · rw [if_neg h]
    have : (List.filter (fun bond =>
        bond.beginAtomId == atomId || bond.endAtomId == atomId)
          (List.map Prod.snd [(k, b)])) = [] := by
      simp only [List.map_cons, List.map_nil, List.filter]
      have : (b.beginAtomId == atomId || b.endAtomId == atomId) = false := by
        simpa using not_or.mp h
      rw [this]
    rw [this]
    simp

theorem valence_sublist (atomId : String) (A A2 : List (String × Atom))
    {B B' : List (String × Bond)} (h : List.Sublist (values B') (values B)) :
    getAtomValence atomId ⟨A2, B'⟩ ≤ getAtomValence atomId ⟨A, B⟩ := by
  simp only [getAtomValence_def]
  exact ((h.filter _).map Bond.order).sum_le_sum (fun a _ => Nat.zero_le a)

theorem valence_zero (atomId : String) (A : List (String × Atom))
    (B : List (String × Bond))
    (h : ∀ b ∈ values B, b.beginAtomId ≠ atomId ∧ b.endAtomId ≠ atomId) :
    getAtomValence atomId ⟨A, B⟩ = 0 := by
  simp only [getAtomValence_def]
  have : (values B).filter (fun bond =>
      bond.beginAtomId == atomId || bond.endAtomId == atomId) = [] := by
    rw [List.filter_eq_nil_iff]
    intro b hb
    simp only [Bool.or_eq_true, beq_iff_eq, not_or]
    exact ⟨(h b hb).1, (h b hb).2⟩
  rw [this]
  simp

/-! ### Well-formedness invariant of the molecule graph -/

/-- Structural well-formedness of a molecule record: every atom entry's value
carries its own key as `id`, atom keys are unique, every bond endpoint
resolves to an atom key, and every atom's valence is bounded by
`max (maxValence element) 3`. -/
def WFMol (m : Molecule) : Prop :=
  (∀ p ∈ m.atoms, p.2.id = p.1) ∧
  (keys m.atoms).Nodup ∧
  (∀ b ∈ values m.bonds,
    b.beginAtomId ∈ keys m.atoms ∧ b.endAtomId ∈ keys m.atoms) ∧
  (∀ p ∈ m.atoms, getAtomValence p.2.id m ≤ max (maxValence p.2.element) 3)

/-- Well-formedness of the whole component state. -/
def WFState (s : AppState) : Prop :=
  WFMol s.molecule ∧ s.bondOrder ≤ 3

theorem WFMol_addAtom {A : List (String × Atom)} {B : List (String × Bond)}
    (wf : WFMol ⟨A, B⟩) (id2 : String) (x y : ℝ) (el : String)
    (hfresh : id2 ∉ keys A) :
    WFMol ⟨A ++ [(id2, ⟨id2, x, y, el⟩)], B⟩ := by
  obtain ⟨hid, hnd, hep, hval⟩ := wf
  refine ⟨?_, ?_, ?_, ?_⟩
  · intro p hp
    rcases List.mem_append.mp hp with h | h
    · exact hid p h
    · simp only [List.mem_singleton] at h
      subst h
      rfl
  · rw [keys_append]
    simp only [keys, List.map_cons, List.map_nil]
    rw [List.nodup_append]
    exact ⟨hnd, List.nodup_singleton _, by
      intro a ha hb
      simp only [List.mem_singleton] at hb
      exact hfresh (hb ▸ ha)⟩
  · intro b hb
    obtain ⟨h1, h2⟩ := hep b hb
    rw [keys_append]
    exact ⟨List.mem_append_left _ h1, List.mem_append_left _ h2⟩
  · intro p hp
    rcases List.mem_append.mp hp with h | h
    · rw [getAtomValence_bonds_only _ _ A]
      exact hval p h
    · simp only [List.mem_singleton] at h
      subst h
      rw [getAtomValence_bonds_only _ _ A]
      rw [valence_zero _ A B (by
        intro b hb
        obtain ⟨h1, h2⟩ := hep b hb
        constructor
        · intro hc
          have hc' : b.beginAtomId = id2 := hc
          exact hfresh (hc' ▸ h1)
        · intro hc
          have hc' : b.endAtomId = id2 := hc
          exact hfresh (hc' ▸ h2))]
      exact Nat.zero_le _

theorem WFMol_eraseAtom {A : List (String × Atom)} {B : List (String × Bond)}
    (wf : WFMol ⟨A, B⟩) (aid : String) :
    WFMol ⟨recordDelete A aid,
      B.filter (fun p => p.2.beginAtomId != aid && p.2.endAtomId != aid)⟩ := by
  obtain ⟨hid, hnd, hep, hval⟩ := wf
  have hsubA : List.Sublist (recordDelete A aid) A := List.filter_sublist A
  have hsubB : List.Sublist
      (B.filter (fun p => p.2.beginAtomId != aid && p.2.endAtomId != aid)) B :=
    List.filter_sublist B
  refine ⟨?_, ?_, ?_, ?_⟩
  · intro p hp
    exact hid p (hsubA.mem hp)
  · exact List.Nodup.sublist (hsubA.map Prod.fst) hnd
  · intro b hb
    simp only [values, List.mem_map] at hb
    obtain ⟨p, hp, hpb⟩ := hb
    have hpB : p ∈ B := hsubB.mem hp
    have hpf := List.of_mem_filter hp
    simp only [Bool.and_eq_true, bne_iff_ne, ne_eq] at hpf
    obtain ⟨h1, h2⟩ := hep b (hpb ▸ List.mem_map_of_mem Prod.snd hpB)
    have hmem : ∀ k : String, k ∈ keys A → k ≠ aid →
        k ∈ keys (recordDelete A aid) := by
      intro k hk hkne
      simp only [keys, List.mem_map] at hk ⊢
      obtain ⟨q, hq, hqk⟩ := hk
      refine ⟨q, ?_, hqk⟩
      apply List.mem_filter.mpr
      exact ⟨hq, by simp [hqk, hkne]⟩
    subst hpb
    exact ⟨hmem _ h1 hpf.1, hmem _ h2 hpf.2⟩
  · intro p hp
    have hpA : p ∈ A := hsubA.mem hp
    exact le_trans (valence_sublist _ _ _ (hsubB.map Prod.snd)) (hval p hpA)

theorem WFMol_eraseBond {A : List (String × Atom)} {B : List (String × Bond)}
    (wf : WFMol ⟨A, B⟩) (bid : String) :
    WFMol ⟨A, recordDelete B bid⟩ := by
  obtain ⟨hid, hnd, hep, hval⟩ := wf
  have hsubB : List.Sublist (recordDelete B bid) B := List.filter_sublist B
  refine ⟨hid, hnd, ?_, ?_⟩
  · intro b hb
    simp only [values, List.mem_map] at hb
    obtain ⟨p, hp, hpb⟩ := hb
    exact hep b (hpb ▸ List.mem_map_of_mem Prod.snd (hsubB.mem hp))
  · intro p hp
    exact le_trans (valence_sublist _ _ _ (hsubB.map Prod.snd)) (hval p hp)

theorem WFMol_addBond {A : List (String × Atom)} {B : List (String × Bond)}
    (wf : WFMol ⟨A, B⟩) (bid : String) (ord : ℕ) {origin target : Atom}
    (horig : origin ∈ values A) (htarget : target ∈ values A)
    (hv1 : getAtomValence origin.id ⟨A, B⟩ + ord ≤ maxValence origin.element)
    (hv2 : getAtomValence target.id ⟨A, B⟩ + ord ≤ maxValence target.element) :
    WFMol ⟨A, B ++ [(bid, ⟨bid, origin.id, target.id, ord⟩)]⟩ := by
  obtain ⟨hid, hnd, hep, hval⟩ := wf
  simp only [values, List.mem_map] at horig htarget
  obtain ⟨po, hpo, hpoe⟩ := horig
  obtain ⟨pt, hpt, hpte⟩ := htarget
  refine ⟨hid, hnd, ?_, ?_⟩
  · intro b hb
    rw [values_append] at hb
    rcases List.mem_append.mp hb with h | h
    · exact hep b h
    · simp only [values, List.map_cons, List.map_nil, List.mem_singleton] at h
      subst h
      constructor
      · exact (hpoe ▸ hid po hpo : origin.id = po.1) ▸
          List.mem_map_of_mem Prod.fst hpo
      · exact (hpte ▸ hid pt hpt : target.id = pt.1) ▸
          List.mem_map_of_mem Prod.fst hpt
  · intro p hp
    rw [valence_append]
    by_cases hc : origin.id = p.2.id ∨ target.id = p.2.id
    · rcases hc with hc | hc
      · have : p = po := entry_unique hnd hp hpo
          (by rw [← hid p hp, ← hid po hpo, ← hc, hpoe])
        subst this
        rw [if_pos (Or.inl hc)]
        calc getAtomValence p.2.id ⟨A, B⟩ + ord
            = getAtomValence origin.id ⟨A, B⟩ + ord := by rw [hc]
          _ ≤ maxValence origin.element := hv1
          _ = maxValence p.2.element := by rw [hpoe]
          _ ≤ max (maxValence p.2.element) 3 := le_max_left _ _
      · have : p = pt := entry_unique hnd hp hpt
          (by rw [← hid p hp, ← hid pt hpt, ← hc, hpte])
        subst this
        rw [if_pos (Or.inr hc)]
        calc getAtomValence p.2.id ⟨A, B⟩ + ord
            = getAtomValence target.id ⟨A, B⟩ + ord := by rw [hc]
          _ ≤ maxValence target.element := hv2
          _ = maxValence p.2.element := by rw [hpte]
          _ ≤ max (maxValence p.2.element) 3 := le_max_left _ _
    · rw [if_neg hc, Nat.add_zero]
      exact hval p hp

theorem WFMol_growAtom {A : List (String × Atom)} {B : List (String × Bond)}
    (wf : WFMol ⟨A, B⟩) {origin : Atom} (na nb : String) (ord : ℕ)
    (nx ny : ℝ) (el : String)
    (hna : na ∉ keys A) (hord : ord ≤ 3)
    (horig : origin ∈ values A)
    (hv : getAtomValence origin.id ⟨A, B⟩ + ord ≤ maxValence origin.element) :
    WFMol ⟨A ++ [(na, ⟨na, nx, ny, el⟩)],
      B ++ [(nb, ⟨nb, origin.id, na, ord⟩)]⟩ := by
  obtain ⟨hid, hnd, hep, hval⟩ := wf
  simp only [values, List.mem_map] at horig
  obtain ⟨po, hpo, hpoe⟩ := horig
  have horigkey : origin.id ∈ keys A :=
    (hpoe ▸ hid po hpo : origin.id = po.1) ▸ List.mem_map_of_mem Prod.fst hpo
  refine ⟨?_, ?_, ?_, ?_⟩
  · intro p hp
    rcases List.mem_append.mp hp with h | h
    · exact hid p h
    · simp only [List.mem_singleton] at h
      subst h
      rfl
  · rw [keys_append]
    simp only [keys, List.map_cons, List.map_nil]
    rw [List.nodup_append]
    exact ⟨hnd, List.nodup_singleton _, by
      intro a ha hb
      simp only [List.mem_singleton] at hb
      exact hna (hb ▸ ha)⟩
  · intro b hb
    rw [values_append] at hb
    rcases List.mem_append.mp hb with h | h
    · obtain ⟨h1, h2⟩ := hep b h
      rw [keys_append]
      exact ⟨List.mem_append_left _ h1, List.mem_append_left _ h2⟩
    · simp only [values, List.map_cons, List.map_nil, List.mem_singleton] at h
      subst h
      rw [keys_append]
      refine ⟨List.mem_append_left _ horigkey, List.mem_append_right _ ?_⟩
      simp [keys]
  · intro p hp
    rcases List.mem_append.mp hp with h | h
    · rw [getAtomValence_bonds_only _ _ A, valence_append]
      have hpna : p.2.id ≠ na := by
        intro hc
        exact hna (hc ▸ (hid p h ▸ List.mem_map_of_mem Prod.fst h))
      by_cases hc : origin.id = p.2.id
      · have : p = po := entry_unique hnd h hpo
          (by rw [← hid p h, ← hid po hpo, ← hc, hpoe])
        subst this
        rw [if_pos (Or.inl hc)]
        calc getAtomValence p.2.id ⟨A, B⟩ + ord
            = getAtomValence origin.id ⟨A, B⟩ + ord := by rw [hc]
          _ ≤ maxValence origin.element := hv
          _ = maxValence p.2.element := by rw [hpoe]
          _ ≤ max (maxValence p.2.element) 3 := le_max_left _ _
      · rw [if_neg (by
          simp only [not_or]
          exact ⟨hc, fun hcc => hpna hcc.symm⟩), Nat.add_zero]
        exact hval p h
    · simp only [List.mem_singleton] at h
      subst h
      rw [getAtomValence_bonds_only _ _ A, valence_append]
      rw [if_pos (Or.inr rfl)]
      rw [valence_zero _ A B (by
        intro b hb
        obtain ⟨h1, h2⟩ := hep b hb
        constructor
        · intro hcc
          have hcc' : b.beginAtomId = na := hcc
          exact hna (hcc' ▸ h1)
        · intro hcc
          have hcc' : b.endAtomId = na := hcc
          exact hna (hcc' ▸ h2))]
      rw [Nat.zero_add]
      exact le_trans hord (le_max_right _ _)

/-! ### Gesture-driven transition system -/

/-- One UI event processed by the `App` component.  The identifier
arguments stand for the outputs of `generateId` and are required to be
fresh keys.  A handler that throws (returns `none`) contributes no step.
The configuration setters are restricted to the options the Toolbar
offers. -/
inductive Step : AppState → AppState → Prop where
  | canvasClick (s s' : AppState) (x y : ℝ) (newId : String)
      (hfresh : newId ∉ keys s.molecule.atoms)
      (h : handleCanvasClick s x y newId = some s') : Step s s'
  | atomMouseDown (s : AppState) (atomId : String) (x y : ℝ) :
      Step s (handleAtomMouseDown s atomId x y)
  | canvasMouseMove (s : AppState) (x y : ℝ) :
      Step s (handleCanvasMouseMove s x y)
  | atomMouseUp (s s' : AppState) (atomId : String) (x y : ℝ)
      (newAtomId newBondId : String)
      (hfreshA : newAtomId ∉ keys s.molecule.atoms)
      (hfreshB : newBondId ∉ keys s.molecule.bonds)
      (h : handleAtomMouseUp s atomId x y newAtomId newBondId = some s') :
      Step s s'
  | canvasMouseUp (s : AppState) (x y : ℝ) (newAtomId newBondId : String)
      (hfreshA : newAtomId ∉ keys s.molecule.atoms)
      (hfreshB : newBondId ∉ keys s.molecule.bonds) :
      Step s (handleCanvasMouseUp s x y newAtomId newBondId)
  | setMode (s : AppState) (m : String)
      (hm : m = "select" ∨ m = "atom" ∨ m = "bond" ∨ m = "erase") :
      Step s { s with mode := m }
  | setElement (s : AppState) (el : String)
      (hel : el ∈ ["C", "N", "O", "S", "P", "Cl", "Br", "I", "F", "H"]) :
      Step s { s with element := el }
  | setBondOrder (s : AppState) (o : ℕ) (ho : o = 1 ∨ o = 2 ∨ o = 3) :
      Step s { s with bondOrder := o }

/-- States reachable from the initial `App` state through processed
events. -/
inductive Reachable : AppState → Prop where
  | init : Reachable initState
  | step {s s' : AppState} (hs : Reachable s) (h : Step s s') : Reachable s'

theorem handleAtomMouseDown_molecule (s : AppState) (atomId : String)
    (x y : ℝ) : (handleAtomMouseDown s atomId x y).molecule = s.molecule := by
  unfold handleAtomMouseDown
  split <;> rfl

theorem handleAtomMouseDown_bondOrder (s : AppState) (atomId : String)
    (x y : ℝ) : (handleAtomMouseDown s atomId x y).bondOrder = s.bondOrder := by
  unfold handleAtomMouseDown
  split <;> rfl

theorem handleCanvasMouseMove_molecule (s : AppState) (x y : ℝ) :
    (handleCanvasMouseMove s x y).molecule = s.molecule := by
  unfold handleCanvasMouseMove
  split <;> rfl

theorem handleCanvasMouseMove_bondOrder (s : AppState) (x y : ℝ) :
    (handleCanvasMouseMove s x y).bondOrder = s.bondOrder := by
  unfold handleCanvasMouseMove
  split <;> rfl

theorem WFState_canvasClick {s s' : AppState} {x y : ℝ} {newId : String}
    (wf : WFState s) (hfresh : newId ∉ keys s.molecule.atoms)
    (h : handleCanvasClick s x y newId = some s') : WFState s' := by
  simp only [handleCanvasClick] at h
  split at h
  · cases h
    exact ⟨wf.1, wf.2⟩
  · split at h
    · split at h
      · cases h
        exact wf
      · split at h
        · cases h
          exact wf
        · cases h
          refine ⟨?_, wf.2⟩
          show WFMol ⟨recordSet s.molecule.atoms newId _, s.molecule.bonds⟩
          rw [recordSet_fresh _ hfresh]
          exact WFMol_addAtom wf.1 newId x y s.element hfresh
    · split at h
      · split at h
        · cases h
          exact ⟨WFMol_eraseAtom wf.1 _, wf.2⟩
        · split at h
          · exact absurd h (by simp)
          · cases h
            exact wf
          · cases h
            exact ⟨WFMol_eraseBond wf.1 _, wf.2⟩
      · cases h
        exact wf

theorem WFState_atomMouseUp {s s' : AppState} {atomId : String} {x y : ℝ}
    {newAtomId newBondId : String} (wf : WFState s)
    (hfreshA : newAtomId ∉ keys s.molecule.atoms)
    (hfreshB : newBondId ∉ keys s.molecule.bonds)
    (h : handleAtomMouseUp s atomId x y newAtomId newBondId = some s') :
    WFState s' := by
  simp only [handleAtomMouseUp] at h
  split at h
  case h_2 =>
    cases h
    exact ⟨wf.1, wf.2⟩
  case h_1 md hmd =>
    split at h
    · split at h
      · split at h
        · exact absurd h (by simp)
        · rename_i clickedAtom hlookup
          split at h
          · cases h
            exact ⟨wf.1, wf.2⟩
          · rename_i hguard
            cases h
            refine ⟨?_, wf.2⟩
            show WFMol ⟨recordSet s.molecule.atoms newAtomId _,
              recordSet s.molecule.bonds newBondId _⟩
            rw [recordSet_fresh _ hfreshA, recordSet_fresh _ hfreshB]
            exact WFMol_growAtom wf.1 newAtomId newBondId s.bondOrder _ _
              s.element hfreshA wf.2 (mem_values_of_lookup hlookup)
              (Nat.not_lt.mp hguard)
      · cases h
        exact ⟨wf.1, wf.2⟩
    · cases h
      exact ⟨wf.1, wf.2⟩

theorem WFState_canvasMouseUp {s : AppState} {x y : ℝ}
    {newAtomId newBondId : String} (wf : WFState s)
    (hfreshA : newAtomId ∉ keys s.molecule.atoms)
    (hfreshB : newBondId ∉ keys s.molecule.bonds) :
    WFState (handleCanvasMouseUp s x y newAtomId newBondId) := by
  have hclear : ∀ t : AppState, WFMol t.molecule → t.bondOrder ≤ 3 →
      WFState (clearDragState t) := fun t h1 h2 => ⟨h1, h2⟩
  simp only [handleCanvasMouseUp]
  split
  · exact hclear _ wf.1 wf.2
  · rename_i did hdid
    split
    · split
      · exact hclear _ wf.1 wf.2
      · rename_i originAtom hlookup
        have horigid : originAtom.id = did :=
          wf.1.1 _ (lookup_mem hlookup)
        split
        · exact hclear _ wf.1 wf.2
        · rename_i hguard
          split
          · exact hclear _ wf.1 wf.2
          · split
            · rename_i targetAtom hfind
              split
              · rename_i hcommit
                refine hclear _ ?_ wf.2
                show WFMol ⟨s.molecule.atoms,
                  recordSet s.molecule.bonds newBondId _⟩
                rw [recordSet_fresh _ hfreshB, ← horigid]
                exact WFMol_addBond wf.1 newBondId s.bondOrder
                  (mem_values_of_lookup hlookup)
                  (findP_eq_some hfind).1
                  hcommit.2.1 hcommit.2.2
              · exact hclear _ wf.1 wf.2
            · refine hclear _ ?_ wf.2
              show WFMol ⟨recordSet s.molecule.atoms newAtomId _,
                recordSet s.molecule.bonds newBondId _⟩
              rw [recordSet_fresh _ hfreshA, recordSet_fresh _ hfreshB,
                ← horigid]
              exact WFMol_growAtom wf.1 newAtomId newBondId s.bondOrder _ _
                s.element hfreshA wf.2 (mem_values_of_lookup hlookup)
                (Nat.not_lt.mp hguard)
    · exact hclear _ wf.1 wf.2

theorem WFState_init : WFState initState := by
  refine ⟨⟨?_, ?_, ?_, ?_⟩, ?_⟩
  · intro p hp
    cases hp
  · simp [initState, keys]
  · intro b hb
    cases hb
  · intro p hp
    cases hp
  · show (1 : ℕ) ≤ 3
    omega

/-- Every reachable state is well-formed. -/
theorem reachable_WFState {s : AppState} (h : Reachable s) : WFState s := by
  induction h with
  | init => exact WFState_init
  | step hs hstep ih =>
    cases hstep with
    | canvasClick s' x y newId hfresh h =>
      exact WFState_canvasClick ih hfresh h
    | atomMouseDown atomId x y =>
      refine ⟨?_, ?_⟩
      · rw [handleAtomMouseDown_molecule]
        exact ih.1
      · rw [handleAtomMouseDown_bondOrder]
        exact ih.2
    | canvasMouseMove x y =>
      refine ⟨?_, ?_⟩
      · rw [handleCanvasMouseMove_molecule]
        exact ih.1
      · rw [handleCanvasMouseMove_bondOrder]
        exact ih.2
    | atomMouseUp s' atomId x y newAtomId newBondId hfa hfb h =>
      exact WFState_atomMouseUp ih hfa hfb h
    | canvasMouseUp x y newAtomId newBondId hfa hfb =>
      exact WFState_canvasMouseUp ih hfa hfb
    | setMode m hm => exact ⟨ih.1, ih.2⟩
    | setElement el hel => exact ⟨ih.1, ih.2⟩
    | setBondOrder o ho =>
      refine ⟨ih.1, ?_⟩
      rcases ho with h | h | h <;> simp [h]

/-! ### Geometry evaluation lemmas -/

theorem hypot_nonneg (x y : ℝ) : 0 ≤ hypot x y :=
  Real.sqrt_nonneg _

theorem hypot_lt_iff {x y r : ℝ} (hr : 0 < r) :
    hypot x y < r ↔ x ^ 2 + y ^ 2 < r ^ 2 :=
  Real.sqrt_lt' hr

theorem hypot_le_iff {x y r : ℝ} (hr : 0 ≤ r) :
    hypot x y ≤ r ↔ x ^ 2 + y ^ 2 ≤ r ^ 2 := by
  rw [show (hypot x y ≤ r) = (Real.sqrt (x ^ 2 + y ^ 2) ≤ Real.sqrt (r ^ 2))
    from by rw [Real.sqrt_sq hr]; rfl]
  exact Real.sqrt_le_sqrt_iff (by positivity)

theorem hypot_zero : hypot 0 0 = 0 := by
  simp [hypot]

theorem atan2_zero_of_pos {x : ℝ} (hx : 0 ≤ x) : atan2 0 x = 0 := by
  unfold atan2
  rw [show (⟨x, 0⟩ : ℂ) = ((x : ℝ) : ℂ) from rfl]
  exact Complex.arg_ofReal_of_nonneg hx

theorem atan2_down {y : ℝ} (hy : y < 0) : atan2 y 0 = -(Real.pi / 2) := by
  unfold atan2
  rw [Complex.arg_eq_neg_pi_div_two_iff]
  exact ⟨rfl, hy⟩

theorem atan2_sin_cos {θ : ℝ} (h : θ ∈ Set.Ioc (-Real.pi) Real.pi) :
    atan2 (Real.sin θ) (Real.cos θ) = θ := by
  unfold atan2
  have h2 : (⟨Real.cos θ, Real.sin θ⟩ : ℂ) =
      ((Real.cos θ : ℝ) : ℂ) + ((Real.sin θ : ℝ) : ℂ) * Complex.I := by
    apply Complex.ext
    · simp only [Complex.add_re, Complex.ofReal_re, Complex.mul_re,
        Complex.ofReal_im, Complex.I_re, Complex.I_im]
      ring
    · simp only [Complex.add_im, Complex.ofReal_re, Complex.mul_im,
        Complex.ofReal_im, Complex.I_re, Complex.I_im]
      ring
  rw [h2, Complex.ofReal_cos, Complex.ofReal_sin]
  exact Complex.arg_cos_add_sin_mul_I h

/-! ### Claim C2 -/

/-- C2: for every molecule and every pair of distinct atoms that already
share a bond (in either orientation), a drag from one released over the
other commits nothing: no new bond is created and the molecule (in
particular its bond record) is unchanged. -/
theorem C2_duplicate_bond_rejected (s : AppState) (x y : ℝ)
    (newAtomId newBondId did : String) (targetAtom : Atom)
    (hds : s.dragStartAtomId = some did)
    (hfind : findP (fun atom => ¬ atom.id = did ∧
        hypot (atom.x - x) (atom.y - y) < 18)
      (values s.molecule.atoms) = some targetAtom)
    (hbonded : ∃ b ∈ values s.molecule.bonds,
      (b.beginAtomId = did ∧ b.endAtomId = targetAtom.id) ∨
      (b.endAtomId = did ∧ b.beginAtomId = targetAtom.id)) :
    (handleCanvasMouseUp s x y newAtomId newBondId).molecule = s.molecule := by
  have hany : (values s.molecule.bonds).any (fun bond =>
      (bond.beginAtomId == did && bond.endAtomId == targetAtom.id) ||
      (bond.endAtomId == did && bond.beginAtomId == targetAtom.id)) = true := by
    rw [List.any_eq_true]
    obtain ⟨b, hb, hor⟩ := hbonded
    refine ⟨b, hb, ?_⟩
    rcases hor with ⟨h1, h2⟩ | ⟨h1, h2⟩ <;> simp [h1, h2]
  simp only [handleCanvasMouseUp, hds]
  split
  · split
    · rfl
    · split
      · rfl
      · split
        · rfl
        · rw [hfind]
          dsimp only
          rw [if_neg]
          · rfl
          · intro hc
            rw [hany] at hc
            exact Bool.noConfusion hc.1
  · rfl

/-- Concrete two-oxygen molecule with one existing bond, used as test
input. -/
noncomputable def molC2 : Molecule :=
  { atoms := [("A", { id := "A", x := 0, y := 0, element := "O" }),
              ("B", { id := "B", x := 40, y := 0, element := "O" })]
    bonds := [("b1", { id := "b1", beginAtomId := "A", endAtomId := "B",
                       order := 1 })] }

/-- Concrete state mid-drag from atom `A` of `molC2`. -/
noncomputable def sC2 : AppState :=
  { molecule := molC2, mode := "atom", element := "O", bondOrder := 1,
    dragStartAtomId := some "A", dragPos := some (40, 0),
    mouseDownAtom := some { atomId := "A", x := 0, y := 0 },
    wasDrag := false }

/-- C2 witness: releasing the drag from `A` on the already-bonded atom `B`
leaves the molecule unchanged. -/
theorem C2_witness :
    (handleCanvasMouseUp sC2 40 0 "n1" "n2").molecule = sC2.molecule := by
  apply C2_duplicate_bond_rejected sC2 40 0 "n1" "n2" "A"
    (⟨"B", 40, 0, "O"⟩ : Atom) rfl
  · show findP _ (values molC2.atoms) = _
    simp only [molC2, values, List.map_cons, List.map_nil]
    rw [findP, if_neg, findP, if_pos]
    · exact ⟨by simp, by
        rw [show (40 : ℝ) - 40 = 0 by norm_num, show (0 : ℝ) - 0 = 0 by
          norm_num, hypot_zero]
        norm_num⟩
    · intro hc
      exact hc.1 rfl
  · refine ⟨⟨"b1", "A", "B", 1⟩, ?_, Or.inl ⟨rfl, rfl⟩⟩
    show _ ∈ values molC2.bonds
    simp [molC2, values]

/-! ### Claim C3 -/

/-- C3: whenever a pointer-up valence check fails (at the origin atom for
grow and for drag release, or at the target endpoint for connect), the
pending mutation is cancelled with no change to the molecule and the drag
session state (`mouseDownAtom`, `dragStartAtomId`, `dragPos`) is
cleared. -/
theorem C3_valence_fail_cancels (s : AppState) (x y : ℝ)
    (atomId na nb : String) :
    (∀ md atom, s.mode = "atom" → s.mouseDownAtom = some md →
      md.atomId = atomId →
      hypot (x - md.x) (y - md.y) ≤ DRAG_CLICK_THRESHOLD →
      List.lookup atomId s.molecule.atoms = some atom →
      maxValence atom.element < getAtomValence atom.id s.molecule + s.bondOrder →
      handleAtomMouseUp s atomId x y na nb = some (clearDragState s) ∧
        (clearDragState s).molecule = s.molecule ∧
        (clearDragState s).mouseDownAtom = none ∧
        (clearDragState s).dragStartAtomId = none ∧
        (clearDragState s).dragPos = none) ∧
    (∀ did origin, s.mode = "atom" → s.dragStartAtomId = some did →
      List.lookup did s.molecule.atoms = some origin →
      maxValence origin.element < getAtomValence origin.id s.molecule + s.bondOrder →
      handleCanvasMouseUp s x y na nb = clearDragState { s with wasDrag := true } ∧
        (clearDragState { s with wasDrag := true }).molecule = s.molecule ∧
        (clearDragState { s with wasDrag := true }).mouseDownAtom = none ∧
        (clearDragState { s with wasDrag := true }).dragStartAtomId = none ∧
        (clearDragState { s with wasDrag := true }).dragPos = none) ∧
    (∀ did origin targetAtom, s.mode = "atom" → s.dragStartAtomId = some did →
      List.lookup did s.molecule.atoms = some origin →
      getAtomValence origin.id s.molecule + s.bondOrder ≤ maxValence origin.element →
      (∀ md, s.mouseDownAtom = some md →
        ¬ (md.atomId = did ∧ hypot (md.x - x) (md.y - y) ≤ DRAG_CLICK_THRESHOLD)) →
      findP (fun atom => ¬ atom.id = did ∧ hypot (atom.x - x) (atom.y - y) < 18)
        (values s.molecule.atoms) = some targetAtom →
      maxValence targetAtom.element <
        getAtomValence targetAtom.id s.molecule + s.bondOrder →
      handleCanvasMouseUp s x y na nb = clearDragState { s with wasDrag := true } ∧
        (clearDragState { s with wasDrag := true }).molecule = s.molecule) := by
  refine ⟨?_, ?_, ?_⟩
  · intro md atom hmode hmd hid hth hlk hfail
    simp only [handleAtomMouseUp, hmd]
    rw [if_pos ⟨hmode, hid⟩, if_pos hth, hlk]
    dsimp only
    rw [if_pos hfail]
    exact ⟨rfl, rfl, rfl, rfl, rfl⟩
  · intro did origin hmode hds hlk hfail
    simp only [handleCanvasMouseUp, hds]
    rw [if_pos hmode, hlk]
    dsimp only
    rw [if_pos hfail]
    exact ⟨rfl, rfl, rfl, rfl, rfl⟩
  · intro did origin targetAtom hmode hds hlk hpass hnotclick hfind hfail
    simp only [handleCanvasMouseUp, hds]
    rw [if_pos hmode, hlk]
    dsimp only
    rw [if_neg (not_lt.mpr hpass)]
    rcases hmd : s.mouseDownAtom with _ | md
    · simp only [hmd]
      dsimp only
      rw [if_neg not_false, hfind]
      dsimp only
      rw [if_neg]
      · exact ⟨rfl, rfl⟩
      · intro hc
        exact absurd hc.2.2 (not_le.mpr hfail)
    · simp only [hmd]
      dsimp only
      rw [if_neg (hnotclick md hmd), hfind]
      dsimp only
      rw [if_neg]
      · exact ⟨rfl, rfl⟩
      · intro hc
        exact absurd hc.2.2 (not_le.mpr hfail)

/-- Concrete one-hydrogen-atom state: a grow with bond order 2 must fail
the valence check (`0 + 2 > 1`). -/
noncomputable def sC3a : AppState :=
  { molecule := { atoms := [("A", { id := "A", x := 0, y := 0, element := "H" })]
                  bonds := [] }
    mode := "atom", element := "C", bondOrder := 2,
    dragStartAtomId := some "A", dragPos := some (0, 0),
    mouseDownAtom := some { atomId := "A", x := 0, y := 0 },
    wasDrag := false }

/-- Concrete carbon-and-hydrogen state: connecting with bond order 2 must
fail the valence check at the hydrogen target (`0 + 2 > 1`). -/
noncomputable def sC3c : AppState :=
  { molecule := { atoms := [("A", { id := "A", x := 0, y := 0, element := "C" }),
                            ("B", { id := "B", x := 40, y := 0, element := "H" })]
                  bonds := [] }
    mode := "atom", element := "C", bondOrder := 2,
    dragStartAtomId := some "A", dragPos := some (40, 0),
    mouseDownAtom := some { atomId := "A", x := 0, y := 0 },
    wasDrag := false }

/-- C3 witness: the three cancellation paths at concrete inputs. -/
theorem C3_witness :
    handleAtomMouseUp sC3a "A" 0 0 "n1" "n2" = some (clearDragState sC3a) ∧
    handleCanvasMouseUp sC3a 0 0 "n1" "n2" =
      clearDragState { sC3a with wasDrag := true } ∧
    handleCanvasMouseUp sC3c 40 0 "n1" "n2" =
      clearDragState { sC3c with wasDrag := true } := by
  have hz : hypot ((0 : ℝ) - 0) ((0 : ℝ) - 0) ≤ DRAG_CLICK_THRESHOLD := by
    rw [show (0 : ℝ) - 0 = 0 by norm_num, hypot_zero]
    norm_num [DRAG_CLICK_THRESHOLD]
  refine ⟨?_, ?_, ?_⟩
  · exact ((C3_valence_fail_cancels sC3a 0 0 "A" "n1" "n2").1
      ⟨"A", 0, 0⟩ ⟨"A", 0, 0, "H"⟩ rfl rfl rfl hz rfl (by decide)).1
  · exact ((C3_valence_fail_cancels sC3a 0 0 "A" "n1" "n2").2.1
      "A" ⟨"A", 0, 0, "H"⟩ rfl rfl rfl (by decide)).1
  · refine ((C3_valence_fail_cancels sC3c 40 0 "A" "n1" "n2").2.2
      "A" ⟨"A", 0, 0, "C"⟩ ⟨"B", 40, 0, "H"⟩ rfl rfl rfl (by decide) ?_ ?_
      (by decide)).1
    · intro md hmd hc
      cases hmd
      have := (hypot_le_iff (by norm_num [DRAG_CLICK_THRESHOLD] :
        (0 : ℝ) ≤ DRAG_CLICK_THRESHOLD)).mp hc.2
      norm_num [DRAG_CLICK_THRESHOLD] at this
    · show findP _ (values sC3c.molecule.atoms) = _
      simp only [sC3c, values, List.map_cons, List.map_nil]
      rw [findP, if_neg, findP, if_pos]
      · exact ⟨by simp, by
          rw [show (40 : ℝ) - 40 = 0 by norm_num, show (0 : ℝ) - 0 = 0 by
            norm_num, hypot_zero]
          norm_num⟩
      · intro hc
        exact hc.1 rfl

/-! ### Claim C4 -/

/-- C4: a click-grow from an atom with zero existing bonds uses growth
angle 0 and places the new atom at exactly bond length 40 along the
positive x-axis: position `origin + (cos 0, sin 0) * 40 =
(origin.x + 40, origin.y)`, together with exactly one new bond of the
selected order from the origin to the new atom. -/
theorem C4_grow_zero_bonds (s : AppState) (x y : ℝ)
    (atomId na nb : String) (md : MouseDownInfo) (atom : Atom)
    (hmode : s.mode = "atom") (hmd : s.mouseDownAtom = some md)
    (hid : md.atomId = atomId)
    (hth : hypot (x - md.x) (y - md.y) ≤ DRAG_CLICK_THRESHOLD)
    (hlk : List.lookup atomId s.molecule.atoms = some atom)
    (hnob : (values s.molecule.bonds).filter
      (fun bond => bond.beginAtomId == atom.id || bond.endAtomId == atom.id) = [])
    (hv : s.bondOrder ≤ maxValence atom.element) :
    getOrderedBondAngle atom s.molecule = 0 ∧
    handleAtomMouseUp s atomId x y na nb = some (clearDragState { s with
      molecule :=
        { atoms := recordSet s.molecule.atoms na
            { id := na, x := atom.x + BOND_LENGTH, y := atom.y,
              element := s.element }
          bonds := recordSet s.molecule.bonds nb
            { id := nb, beginAtomId := atom.id, endAtomId := na,
              order := s.bondOrder } } }) := by
  have hval : getAtomValence atom.id s.molecule = 0 := by
    rw [getAtomValence_def, hnob]
    rfl
  have hangle : getOrderedBondAngle atom s.molecule = 0 := by
    unfold getOrderedBondAngle
    rw [hnob]
  refine ⟨hangle, ?_⟩
  simp only [handleAtomMouseUp, hmd]
  rw [if_pos ⟨hmode, hid⟩, if_pos hth, hlk]
  dsimp only
  rw [if_neg (by rw [hval, Nat.zero_add]; exact not_lt.mpr hv)]
  rw [hangle]
  norm_num [Real.cos_zero, Real.sin_zero]

/-- Concrete one-carbon-atom state at position (100, 100). -/
noncomputable def sC4 : AppState :=
  { molecule := { atoms := [("A", { id := "A", x := 100, y := 100,
                                    element := "C" })]
                  bonds := [] }
    mode := "atom", element := "C", bondOrder := 1,
    dragStartAtomId := some "A", dragPos := some (100, 100),
    mouseDownAtom := some { atomId := "A", x := 100, y := 100 },
    wasDrag := false }

/-- C4 witness: growing from the carbon at (100, 100) with bond order 1
places the new atom at exactly (140, 100) with one bond of order 1. -/
theorem C4_witness :
    getOrderedBondAngle ⟨"A", 100, 100, "C"⟩ sC4.molecule = 0 ∧
    handleAtomMouseUp sC4 "A" 100 100 "B" "b1" = some (clearDragState
      { sC4 with molecule :=
        { atoms := [("A", ⟨"A", 100, 100, "C"⟩), ("B", ⟨"B", 140, 100, "C"⟩)]
          bonds := [("b1", ⟨"b1", "A", "B", 1⟩)] } }) := by
  have h := C4_grow_zero_bonds sC4 100 100 "A" "B" "b1" ⟨"A", 100, 100⟩
    ⟨"A", 100, 100, "C"⟩ rfl rfl rfl
    (by rw [show (100 : ℝ) - 100 = 0 by norm_num, hypot_zero]
        norm_num [DRAG_CLICK_THRESHOLD])
    rfl rfl (by decide)
  refine ⟨h.1, ?_⟩
  rw [h.2]
  have hAB : ¬ ("A" = "B") := by decide
  norm_num [recordSet, sC4, BOND_LENGTH, if_neg hAB]

/-! ### Erase-mode branch lemmas for `handleCanvasClick` -/

theorem findP_some_of_exists {α : Type} {p : α → Prop} {l : List α}
    (h : ∃ a ∈ l, p a) : ∃ b, findP p l = some b := by
  induction l with
  | nil =>
    obtain ⟨a, ha, _⟩ := h
    cases ha
  | cons x xs ih =>
    by_cases hx : p x
    · exact ⟨x, by rw [findP, if_pos hx]⟩
    · obtain ⟨a, ha, hpa⟩ := h
      rcases List.mem_cons.mp ha with rfl | ha'
      · exact absurd hpa hx
      · obtain ⟨b, hb⟩ := ih ⟨a, ha', hpa⟩
        exact ⟨b, by rw [findP, if_neg hx, hb]⟩

theorem handleCanvasClick_erase_atom {s : AppState} {x y : ℝ} (nid : String)
    {A : Atom} (hmode : s.mode = "erase") (hwd : s.wasDrag = false)
    (hfind : findP (fun atom => hypot (atom.x - x) (atom.y - y) < 16)
      (values s.molecule.atoms) = some A) :
    handleCanvasClick s x y nid = some { s with molecule :=
      { atoms := recordDelete s.molecule.atoms A.id
        bonds := s.molecule.bonds.filter (fun p =>
          p.2.beginAtomId != A.id && p.2.endAtomId != A.id) } } := by
  unfold handleCanvasClick
  rw [if_neg (by simp [hwd]), if_neg (by rw [hmode]; decide), if_pos hmode,
    hfind]

theorem handleCanvasClick_erase_nobond {s : AppState} {x y : ℝ} (nid : String)
    (hmode : s.mode = "erase") (hwd : s.wasDrag = false)
    (hfa : findP (fun atom => hypot (atom.x - x) (atom.y - y) < 16)
      (values s.molecule.atoms) = none)
    (hfb : findBondToErase s.molecule x y (values s.molecule.bonds) =
      some none) :
    handleCanvasClick s x y nid = some s := by
  unfold handleCanvasClick
  rw [if_neg (by simp [hwd]), if_neg (by rw [hmode]; decide), if_pos hmode,
    hfa, hfb]

theorem handleCanvasClick_erase_bond {s : AppState} {x y : ℝ} (nid : String)
    {b : Bond} (hmode : s.mode = "erase") (hwd : s.wasDrag = false)
    (hfa : findP (fun atom => hypot (atom.x - x) (atom.y - y) < 16)
      (values s.molecule.atoms) = none)
    (hfb : findBondToErase s.molecule x y (values s.molecule.bonds) =
      some (some b)) :
    handleCanvasClick s x y nid = some { s with molecule :=
      { atoms := s.molecule.atoms
        bonds := recordDelete s.molecule.bonds b.id } } := by
  unfold handleCanvasClick
  rw [if_neg (by simp [hwd]), if_neg (by rw [hmode]; decide), if_pos hmode,
    hfa, hfb]

theorem findBondToErase_none (m : Molecule) (x y : ℝ) (l : List Bond)
    (h : ∀ b ∈ l, ∃ d, bondHitDist m x y b = some d ∧ 8 ≤ d) :
    findBondToErase m x y l = some none := by
  induction l with
  | nil => rfl
  | cons b t ih =>
    obtain ⟨d, hd, hge⟩ := h b (List.mem_cons_self _ _)
    rw [findBondToErase, hd]
    dsimp only
    rw [if_neg (not_lt.mpr hge)]
    exact ih fun b' hb' => h b' (List.mem_cons_of_mem _ hb')

theorem findBondToErase_found (m : Molecule) (x y : ℝ) (bs1 : List Bond)
    (b : Bond) (bs2 : List Bond)
    (hskip : ∀ b' ∈ bs1, ∃ d, bondHitDist m x y b' = some d ∧ 8 ≤ d)
    (hhit : ∃ d, bondHitDist m x y b = some d ∧ d < 8) :
    findBondToErase m x y (bs1 ++ b :: bs2) = some (some b) := by
  induction bs1 with
  | nil =>
    obtain ⟨d, hd1, hd2⟩ := hhit
    rw [List.nil_append, findBondToErase, hd1]
    dsimp only
    rw [if_pos hd2]
  | cons c t ih =>
    obtain ⟨d, hd1, hge⟩ := hskip c (List.mem_cons_self _ _)
    rw [List.cons_append, findBondToErase, hd1]
    dsimp only
    rw [if_neg (not_lt.mpr hge)]
    exact ih fun b' hb' => hskip b' (List.mem_cons_of_mem _ hb')

/-! ### Claim C6 -/

/-- C6: after erasing an atom, the atom is absent from the molecule and no
surviving bond references its id (the cascade happens in the same
mutation); moreover in every reachable state every bond endpoint resolves
to a present atom, so no dangling bond ever exists in an observable
state. -/
theorem C6_erase_atom_cascades :
    (∀ (s : AppState) (x y : ℝ) (nid : String) (A : Atom),
      s.mode = "erase" → s.wasDrag = false →
      findP (fun atom => hypot (atom.x - x) (atom.y - y) < 16)
        (values s.molecule.atoms) = some A →
      ∃ s', handleCanvasClick s x y nid = some s' ∧
        A.id ∉ keys s'.molecule.atoms ∧
        (∀ b ∈ values s'.molecule.bonds,
          b.beginAtomId ≠ A.id ∧ b.endAtomId ≠ A.id)) ∧
    (∀ t : AppState, Reachable t → ∀ b ∈ values t.molecule.bonds,
      b.beginAtomId ∈ keys t.molecule.atoms ∧
      b.endAtomId ∈ keys t.molecule.atoms) := by
  constructor
  · intro s x y nid A hmode hwd hfind
    refine ⟨_, handleCanvasClick_erase_atom nid hmode hwd hfind, ?_, ?_⟩
    · intro hc
      simp only [keys, List.mem_map] at hc
      obtain ⟨p, hp, hpk⟩ := hc
      have := List.of_mem_filter hp
      rw [bne_iff_ne] at this
      exact this hpk
    · intro b hb
      simp only [values, List.mem_map] at hb
      obtain ⟨p, hp, hpb⟩ := hb
      have := List.of_mem_filter hp
      simp only [Bool.and_eq_true, bne_iff_ne] at this
      exact hpb ▸ this
  · intro t ht b hb
    exact (reachable_WFState ht).1.2.2.1 b hb

/-- Concrete three-atom chain `A - B - C` in erase mode, used as test
input for the erase behaviours. -/
noncomputable def molE : Molecule :=
  { atoms := [("A", { id := "A", x := 0, y := 0, element := "C" }),
              ("B", { id := "B", x := 40, y := 0, element := "C" }),
              ("Q", { id := "Q", x := 200, y := 0, element := "C" })]
    bonds := [("b1", { id := "b1", beginAtomId := "A", endAtomId := "B",
                       order := 1 }),
              ("b2", { id := "b2", beginAtomId := "B", endAtomId := "Q",
                       order := 1 })] }

/-- Erase-mode state over `molE`. -/
noncomputable def sE : AppState :=
  { molecule := molE, mode := "erase", element := "C", bondOrder := 1,
    dragStartAtomId := none, dragPos := none, mouseDownAtom := none,
    wasDrag := false }

/-- C6 witness: erasing atom `A` of the chain removes it and both facts
about the result hold; the reachable-state part is instantiated at the
initial state. -/
theorem C6_witness :
    (∃ s', handleCanvasClick sE 0 0 "n" = some s' ∧
      "A" ∉ keys s'.molecule.atoms ∧
      (∀ b ∈ values s'.molecule.bonds,
        b.beginAtomId ≠ "A" ∧ b.endAtomId ≠ "A")) ∧
    (∀ b ∈ values initState.molecule.bonds,
      b.beginAtomId ∈ keys initState.molecule.atoms ∧
      b.endAtomId ∈ keys initState.molecule.atoms) := by
  constructor
  · refine C6_erase_atom_cascades.1 sE 0 0 "n" ⟨"A", 0, 0, "C"⟩ rfl rfl ?_
    show findP _ (values sE.molecule.atoms) = _
    simp only [sE, molE, values, List.map_cons, List.map_nil]
    rw [findP, if_pos]
    rw [show (0 : ℝ) - 0 = 0 by norm_num, hypot_zero]
    norm_num
  · exact C6_erase_atom_cascades.2 initState Reachable.init

/-! ### Claim C9 -/

/-- C9: in erase mode, atom hit-testing takes precedence over bond
hit-testing: if some atom lies within 16 units of the click, the first
qualifying atom (in iteration order) is erased, the atom record loses
exactly that key, and every bond not incident to it survives — no bond is
considered. -/
theorem C9_atom_precedence (s : AppState) (x y : ℝ) (nid : String)
    (hmode : s.mode = "erase") (hwd : s.wasDrag = false)
    (hex : ∃ a ∈ values s.molecule.atoms, hypot (a.x - x) (a.y - y) < 16) :
    ∃ A, findP (fun atom => hypot (atom.x - x) (atom.y - y) < 16)
        (values s.molecule.atoms) = some A ∧
      hypot (A.x - x) (A.y - y) < 16 ∧
      handleCanvasClick s x y nid = some { s with molecule :=
        { atoms := recordDelete s.molecule.atoms A.id
          bonds := s.molecule.bonds.filter (fun p =>
            p.2.beginAtomId != A.id && p.2.endAtomId != A.id) } } ∧
      (∀ kb ∈ s.molecule.bonds, kb.2.beginAtomId ≠ A.id →
        kb.2.endAtomId ≠ A.id →
        kb ∈ s.molecule.bonds.filter (fun p =>
          p.2.beginAtomId != A.id && p.2.endAtomId != A.id)) := by
  obtain ⟨A, hfind⟩ := findP_some_of_exists hex
  refine ⟨A, hfind, (findP_eq_some hfind).2,
    handleCanvasClick_erase_atom nid hmode hwd hfind, ?_⟩
  intro kb hkb h1 h2
  exact List.mem_filter.mpr ⟨hkb, by simp [h1, h2]⟩

/-- C9 witness: clicking at the position of atom `A` erases it even though
the bond `b1` is also within hit radius of the click. -/
theorem C9_witness :
    ∃ A, findP (fun atom => hypot (atom.x - 0) (atom.y - 0) < 16)
        (values sE.molecule.atoms) = some A ∧
      hypot (A.x - 0) (A.y - 0) < 16 ∧
      handleCanvasClick sE 0 0 "n" = some { sE with molecule :=
        { atoms := recordDelete sE.molecule.atoms A.id
          bonds := sE.molecule.bonds.filter (fun p =>
            p.2.beginAtomId != A.id && p.2.endAtomId != A.id) } } ∧
      (∀ kb ∈ sE.molecule.bonds, kb.2.beginAtomId ≠ A.id →
        kb.2.endAtomId ≠ A.id →
        kb ∈ sE.molecule.bonds.filter (fun p =>
          p.2.beginAtomId != A.id && p.2.endAtomId != A.id)) := by
  apply C9_atom_precedence sE 0 0 "n" rfl rfl
  refine ⟨⟨"A", 0, 0, "C"⟩, ?_, ?_⟩
  · show _ ∈ values sE.molecule.atoms
    simp [sE, molE, values]
  · show hypot ((0 : ℝ) - 0) ((0 : ℝ) - 0) < 16
    rw [show (0 : ℝ) - 0 = 0 by norm_num, hypot_zero]
    norm_num

/-! ### Claim C10 -/

/-- C10: erasing a bond is frame-invariant on everything else: the atom
record is untouched and the bond record loses exactly the hit bond's key —
the erased key is gone and every other entry survives unchanged. -/
theorem C10_erase_bond_frame (s : AppState) (x y : ℝ) (nid : String)
    (b : Bond) (hmode : s.mode = "erase") (hwd : s.wasDrag = false)
    (hnoatom : ∀ a ∈ values s.molecule.atoms,
      ¬ hypot (a.x - x) (a.y - y) < 16)
    (hfind : findBondToErase s.molecule x y (values s.molecule.bonds) =
      some (some b)) :
    handleCanvasClick s x y nid = some { s with molecule :=
      { atoms := s.molecule.atoms
        bonds := recordDelete s.molecule.bonds b.id } } ∧
    b.id ∉ keys (recordDelete s.molecule.bonds b.id) ∧
    (∀ kb ∈ s.molecule.bonds, kb.1 ≠ b.id →
      kb ∈ recordDelete s.molecule.bonds b.id) := by
  refine ⟨handleCanvasClick_erase_bond nid hmode hwd
    (findP_of_forall hnoatom) hfind, ?_, ?_⟩
  · intro hc
    simp only [keys, List.mem_map] at hc
    obtain ⟨p, hp, hpk⟩ := hc
    have := List.of_mem_filter hp
    rw [bne_iff_ne] at this
    exact this hpk
  · intro kb hkb hne
    exact List.mem_filter.mpr ⟨hkb, by simp [hne]⟩

theorem le_hypot_iff {x y r : ℝ} (hr : 0 < r) :
    r ≤ hypot x y ↔ r ^ 2 ≤ x ^ 2 + y ^ 2 := by
  rw [← not_lt, hypot_lt_iff hr, not_lt]

/-- C10 witness: clicking at (120, 4) hits bond `b2` of the chain (segment
distance 4) while hitting no atom; exactly `b2` is removed. -/
theorem C10_witness :
    handleCanvasClick sE 120 4 "n" = some { sE with molecule :=
      { atoms := sE.molecule.atoms
        bonds := recordDelete sE.molecule.bonds "b2" } } ∧
    "b2" ∉ keys (recordDelete sE.molecule.bonds "b2") ∧
    (∀ kb ∈ sE.molecule.bonds, kb.1 ≠ "b2" →
      kb ∈ recordDelete sE.molecule.bonds "b2") := by
  apply C10_erase_bond_frame sE 120 4 "n" ⟨"b2", "B", "Q", 1⟩ rfl rfl
  · intro a ha
    simp only [sE, molE, values, List.map_cons, List.map_nil,
      List.mem_cons, List.not_mem_nil, or_false] at ha
    rcases ha with rfl | rfl | rfl <;>
      · rw [hypot_lt_iff (by norm_num : (0 : ℝ) < 16)]
        norm_num
  · show findBondToErase sE.molecule 120 4 (values sE.molecule.bonds) = _
    have hb1 : bondHitDist sE.molecule 120 4 ⟨"b1", "A", "B", 1⟩ =
        some (hypot 80 4) := by
      simp only [bondHitDist, sE, molE]
      rw [show List.lookup "A"
          [("A", ({ id := "A", x := 0, y := 0, element := "C" } : Atom)),
           ("B", { id := "B", x := 40, y := 0, element := "C" }),
           ("Q", { id := "Q", x := 200, y := 0, element := "C" })] =
          some { id := "A", x := 0, y := 0, element := "C" } from rfl]
      rw [show List.lookup "B"
          [("A", ({ id := "A", x := 0, y := 0, element := "C" } : Atom)),
           ("B", { id := "B", x := 40, y := 0, element := "C" }),
           ("Q", { id := "Q", x := 200, y := 0, element := "C" })] =
          some { id := "B", x := 40, y := 0, element := "C" } from rfl]
      norm_num [min_def, max_def]
    have hb2 : bondHitDist sE.molecule 120 4 ⟨"b2", "B", "Q", 1⟩ =
        some (hypot 0 4) := by
      simp only [bondHitDist, sE, molE]
      rw [show List.lookup "B"
          [("A", ({ id := "A", x := 0, y := 0, element := "C" } : Atom)),
           ("B", { id := "B", x := 40, y := 0, element := "C" }),
           ("Q", { id := "Q", x := 200, y := 0, element := "C" })] =
          some { id := "B", x := 40, y := 0, element := "C" } from rfl]
      rw [show List.lookup "Q"
          [("A", ({ id := "A", x := 0, y := 0, element := "C" } : Atom)),
           ("B", { id := "B", x := 40, y := 0, element := "C" }),
           ("Q", { id := "Q", x := 200, y := 0, element := "C" })] =
          some { id := "Q", x := 200, y := 0, element := "C" } from rfl]
      norm_num [min_def, max_def]
    show findBondToErase sE.molecule 120 4
      (values sE.molecule.bonds) = some (some ⟨"b2", "B", "Q", 1⟩)
    rw [show values sE.molecule.bonds =
      [(⟨"b1", "A", "B", 1⟩ : Bond)] ++ (⟨"b2", "B", "Q", 1⟩ : Bond) :: []
      from rfl]
    apply findBondToErase_found
    · intro b' hb'
      simp only [List.mem_singleton] at hb'
      subst hb'
      refine ⟨hypot 80 4, hb1, ?_⟩
      rw [le_hypot_iff (by norm_num : (0 : ℝ) < 8)]
      norm_num
    · refine ⟨hypot 0 4, hb2, ?_⟩
      rw [hypot_lt_iff (by norm_num : (0 : ℝ) < 8)]
      norm_num

/-! ### Claim C7 -/

/-- C7: erase-mode bond hit-testing measures the distance from the click
point to the bond segment with the projection parameter clamped to [0, 1]
(`bondHitDist`): when no atom is within 16 units, a click whose segment
distance to the first qualifying bond is strictly below 8 erases that
bond, and a click for which every bond's segment distance is 8 or more
erases nothing — the state is unchanged. -/
theorem C7_bond_hit_radius (s : AppState) (x y : ℝ) (nid : String)
    (hmode : s.mode = "erase") (hwd : s.wasDrag = false)
    (hnoatom : ∀ a ∈ values s.molecule.atoms,
      ¬ hypot (a.x - x) (a.y - y) < 16) :
    ((∀ b ∈ values s.molecule.bonds,
        ∃ d, bondHitDist s.molecule x y b = some d ∧ 8 ≤ d) →
      handleCanvasClick s x y nid = some s) ∧
    (∀ bs1 b bs2, values s.molecule.bonds = bs1 ++ b :: bs2 →
      (∀ b' ∈ bs1, ∃ d, bondHitDist s.molecule x y b' = some d ∧ 8 ≤ d) →
      (∃ d, bondHitDist s.molecule x y b = some d ∧ d < 8) →
      handleCanvasClick s x y nid = some { s with molecule :=
        { atoms := s.molecule.atoms
          bonds := recordDelete s.molecule.bonds b.id } }) := by
  constructor
  · intro hall
    exact handleCanvasClick_erase_nobond nid hmode hwd
      (findP_of_forall hnoatom)
      (findBondToErase_none _ _ _ _ hall)
  · intro bs1 b bs2 hsplit hskip hhit
    refine handleCanvasClick_erase_bond nid hmode hwd
      (findP_of_forall hnoatom) ?_
    rw [hsplit]
    exact findBondToErase_found _ _ _ _ _ _ hskip hhit

/-- Concrete single-bond molecule `A(0,0) - B(40,0)` in erase mode. -/
noncomputable def sC7 : AppState :=
  { molecule :=
      { atoms := [("A", { id := "A", x := 0, y := 0, element := "C" }),
                  ("B", { id := "B", x := 40, y := 0, element := "C" })]
        bonds := [("b1", { id := "b1", beginAtomId := "A", endAtomId := "B",
                           order := 1 })] }
    mode := "erase", element := "C", bondOrder := 1,
    dragStartAtomId := none, dragPos := none, mouseDownAtom := none,
    wasDrag := false }

/-- C7 witness: a click 8 units above the segment midpoint (segment
distance exactly 8) finds nothing, while a click 7 units above it
(distance 7 < 8) erases the bond. -/
theorem C7_witness :
    handleCanvasClick sC7 20 8 "n" = some sC7 ∧
    handleCanvasClick sC7 20 7 "n" = some { sC7 with molecule :=
      { atoms := sC7.molecule.atoms
        bonds := recordDelete sC7.molecule.bonds "b1" } } := by
  have hlkA : List.lookup "A"
      [("A", ({ id := "A", x := 0, y := 0, element := "C" } : Atom)),
       ("B", { id := "B", x := 40, y := 0, element := "C" })] =
      some { id := "A", x := 0, y := 0, element := "C" } := rfl
  have hlkB : List.lookup "B"
      [("A", ({ id := "A", x := 0, y := 0, element := "C" } : Atom)),
       ("B", { id := "B", x := 40, y := 0, element := "C" })] =
      some { id := "B", x := 40, y := 0, element := "C" } := rfl
  constructor
  · refine (C7_bond_hit_radius sC7 20 8 "n" rfl rfl ?_).1 ?_
    · intro a ha
      simp only [sC7, values, List.map_cons, List.map_nil, List.mem_cons,
        List.not_mem_nil, or_false] at ha
      rcases ha with rfl | rfl <;>
        · rw [hypot_lt_iff (by norm_num : (0 : ℝ) < 16)]
          norm_num
    · intro b hb
      simp only [sC7, values, List.map_cons, List.map_nil, List.mem_cons,
        List.not_mem_nil, or_false] at hb
      subst hb
      refine ⟨hypot 0 8, ?_, ?_⟩
      · simp only [bondHitDist, sC7]
        rw [hlkA, hlkB]
        norm_num [min_def, max_def]
      · rw [le_hypot_iff (by norm_num : (0 : ℝ) < 8)]
        norm_num
  · refine (C7_bond_hit_radius sC7 20 7 "n" rfl rfl ?_).2
      [] ⟨"b1", "A", "B", 1⟩ [] rfl (by intro b' hb'; cases hb') ?_
    · intro a ha
      simp only [sC7, values, List.map_cons, List.map_nil, List.mem_cons,
        List.not_mem_nil, or_false] at ha
      rcases ha with rfl | rfl <;>
        · rw [hypot_lt_iff (by norm_num : (0 : ℝ) < 16)]
          norm_num
    · refine ⟨hypot 0 7, ?_, ?_⟩
      · simp only [bondHitDist, sC7]
        rw [hlkA, hlkB]
        norm_num [min_def, max_def]
      · rw [hypot_lt_iff (by norm_num : (0 : ℝ) < 8)]
        norm_num

/-! ### Claim C8 -/

/-- Concrete state whose drag session references an atom id absent from
the molecule. -/
noncomputable def sC8 : AppState :=
  { molecule := { atoms := [], bonds := [] }
    mode := "atom", element := "C", bondOrder := 1,
    dragStartAtomId := some "a", dragPos := some (0, 0),
    mouseDownAtom := some { atomId := "a", x := 0, y := 0 },
    wasDrag := false }

/-- C8: the claim that no operation ever throws fails on the code:
`handleAtomMouseUp` dereferences `molecule.atoms[atomId]` without the
dangling-reference guard its sibling `handleCanvasMouseUp` has, so a
click-release whose session references an absent atom throws a
`TypeError` (embedded as `none`).  The graceful-default part of the claim
does hold: an unrecognized element symbol gets max valence 4. -/
theorem C8_dangling_session_throws :
    handleAtomMouseUp sC8 "a" 0 0 "n1" "n2" = none ∧
    maxValence "Xq" = 4 := by
  constructor
  · have hmd : sC8.mouseDownAtom = some { atomId := "a", x := 0, y := 0 } :=
      rfl
    simp only [handleAtomMouseUp, hmd]
    rw [if_pos (by exact ⟨rfl, trivial⟩), if_pos (by
      rw [show (0 : ℝ) - 0 = 0 by norm_num, hypot_zero]
      norm_num [DRAG_CLICK_THRESHOLD])]
    rfl
  · rfl

/-! ### Claim C1 -/

/-- State after clicking a carbon atom onto the empty canvas at (0, 0). -/
noncomputable def sOneAtom : AppState :=
  { molecule :=
      { atoms := [("a1", { id := "a1", x := 0, y := 0, element := "C" })]
        bonds := [] }
    mode := "atom", element := "C", bondOrder := 1,
    dragStartAtomId := none, dragPos := none, mouseDownAtom := none,
    wasDrag := false }

/-- State of `sOneAtom` after selecting element "O", bond order 3, and
pressing the pointer down on the carbon atom. -/
noncomputable def sMid : AppState :=
  { molecule :=
      { atoms := [("a1", { id := "a1", x := 0, y := 0, element := "C" })]
        bonds := [] }
    mode := "atom", element := "O", bondOrder := 3,
    dragStartAtomId := some "a1", dragPos := some (0, 0),
    mouseDownAtom := some { atomId := "a1", x := 0, y := 0 },
    wasDrag := false }

/-- State after the click-grow commits from `sMid`: the new oxygen atom
carries a triple bond, so its valence 3 exceeds `maxValence "O" = 2`. -/
noncomputable def sBad : AppState :=
  { molecule :=
      { atoms := [("a1", { id := "a1", x := 0, y := 0, element := "C" }),
                  ("a2", { id := "a2", x := 40, y := 0, element := "O" })]
        bonds := [("b1", { id := "b1", beginAtomId := "a1",
                           endAtomId := "a2", order := 3 })] }
    mode := "atom", element := "O", bondOrder := 3,
    dragStartAtomId := none, dragPos := none, mouseDownAtom := none,
    wasDrag := false }

/-- C1 counterexample: a reachable state (add carbon, select oxygen and
bond order 3, click-grow) contains an atom whose valence exceeds its
element's maximum — the grow commit valence-checks only the origin atom,
never the newly created atom. -/
theorem C1_counterexample :
    Reachable sBad ∧
    (⟨"a2", 40, 0, "O"⟩ : Atom) ∈ values sBad.molecule.atoms ∧
    maxValence "O" < getAtomValence "a2" sBad.molecule := by
  refine ⟨?_, ?_, ?_⟩
  · have h1 : Reachable sOneAtom :=
      Reachable.step Reachable.init
        (Step.canvasClick initState sOneAtom 0 0 "a1"
          (by simp [initState, keys]) rfl)
    have h2 : Reachable { sOneAtom with element := "O" } :=
      Reachable.step h1 (Step.setElement sOneAtom "O" (by simp))
    have h3 : Reachable { sOneAtom with element := "O", bondOrder := 3 } :=
      Reachable.step h2
        (Step.setBondOrder { sOneAtom with element := "O" } 3 (Or.inr (Or.inr rfl)))
    have h4 : Reachable sMid := by
      have := Reachable.step h3
        (Step.atomMouseDown { sOneAtom with element := "O", bondOrder := 3 }
          "a1" 0 0)
      rwa [show handleAtomMouseDown
        { sOneAtom with element := "O", bondOrder := 3 } "a1" 0 0 = sMid
        from rfl] at this
    refine Reachable.step h4
      (Step.atomMouseUp sMid sBad "a1" 0 0 "a2" "b1" (by decide) (by decide)
        ?_)
    have hmd : sMid.mouseDownAtom = some { atomId := "a1", x := 0, y := 0 } :=
      rfl
    simp only [handleAtomMouseUp, hmd]
    rw [if_pos (by exact ⟨rfl, trivial⟩), if_pos (by
      rw [show (0 : ℝ) - 0 = 0 by norm_num, hypot_zero]
      norm_num [DRAG_CLICK_THRESHOLD])]
    rw [show List.lookup "a1" sMid.molecule.atoms =
      some { id := "a1", x := 0, y := 0, element := "C" } from rfl]
    dsimp only
    rw [if_neg (by decide)]
    rw [show getOrderedBondAngle { id := "a1", x := 0, y := 0, element := "C" }
      sMid.molecule = 0 from rfl]
    have hne : ¬ ("a1" = "a2") := by decide
    norm_num [Real.cos_zero, Real.sin_zero, recordSet, sMid, sBad,
      BOND_LENGTH, clearDragState, if_neg hne]
  · show _ ∈ values sBad.molecule.atoms
    simp [sBad, values]
  · decide

/-- C1 (amended): in every reachable state, every atom's valence is
bounded by `max (maxValence element) 3`: existing atoms never exceed
their element's maximum through any commit, and a newly created atom of a
grow or extend starts with valence equal to the selected bond order,
which is at most 3 but may exceed its own element's maximum. -/
theorem C1_valence_bound (s : AppState) (h : Reachable s) :
    ∀ a ∈ values s.molecule.atoms,
      getAtomValence a.id s.molecule ≤ max (maxValence a.element) 3 := by
  intro a ha
  simp only [values, List.mem_map] at ha
  obtain ⟨p, hp, hpa⟩ := ha
  exact hpa ▸ (reachable_WFState h).1.2.2.2 p hp

/-- C1 witness: the amended bound evaluated on the concrete reachable
one-carbon state. -/
theorem C1_witness :
    Reachable sOneAtom ∧
    (∀ a ∈ values sOneAtom.molecule.atoms,
      getAtomValence a.id sOneAtom.molecule ≤ max (maxValence a.element) 3) := by
  have h1 : Reachable sOneAtom :=
    Reachable.step Reachable.init
      (Step.canvasClick initState sOneAtom 0 0 "a1"
        (by simp [initState, keys]) rfl)
  exact ⟨h1, C1_valence_bound sOneAtom h1⟩

/-! ### Claim C5 -/

/-- Directions of the bonds attached to an atom, as the repository's
`getNextBondAngle` revisions compute them (src/src/renderer/App.tsx lines
37-41, src/unnamed/part_001 lines 29-33): the angle of the vector from
the atom to the other endpoint, 0 when the other endpoint does not
resolve. -/
noncomputable def connectedBondAngles (atom : Atom) (molecule : Molecule) :
    List ℝ :=
  ((values molecule.bonds).filter (fun bond =>
      bond.beginAtomId == atom.id || bond.endAtomId == atom.id)).map
    (fun bond =>
      let otherId := if bond.beginAtomId == atom.id
        then bond.endAtomId else bond.beginAtomId
      match List.lookup otherId molecule.atoms with
      | some otherAtom => atan2 (otherAtom.y - atom.y) (otherAtom.x - atom.x)
      | none => 0)

/-- Angular distance between two directions, following part_001 line 53:
`abs (atan2 (sin (a - b)) (cos (a - b)))`, a value in `[0, π]`. -/
noncomputable def angularDistance (a b : ℝ) : ℝ :=
  |atan2 (Real.sin (a - b)) (Real.cos (a - b))|

/-- Minimum angular distance from a direction to a list of directions
(`π` for the empty list). -/
noncomputable def minAngularDistance (a : ℝ) (ds : List ℝ) : ℝ :=
  (ds.map (angularDistance a)).foldr min Real.pi

theorem angularDistance_eq {a b θ : ℝ}
    (h1 : Real.sin (a - b) = Real.sin θ) (h2 : Real.cos (a - b) = Real.cos θ)
    (hmem : -Real.pi < θ ∧ θ ≤ Real.pi) :
    angularDistance a b = |θ| := by
  unfold angularDistance
  rw [h1, h2, atan2_sin_cos ⟨hmem.1, hmem.2⟩]

/-- Molecule with an origin atom `o` bonded towards (40, 0) (direction 0)
and towards (0, -40) (direction -π/2). -/
noncomputable def molC5 : Molecule :=
  { atoms := [("o", { id := "o", x := 0, y := 0, element := "C" }),
              ("b", { id := "b", x := 40, y := 0, element := "C" }),
              ("c", { id := "c", x := 0, y := -40, element := "C" })]
    bonds := [("g1", { id := "g1", beginAtomId := "o", endAtomId := "b",
                       order := 1 }),
              ("g2", { id := "g2", beginAtomId := "o", endAtomId := "c",
                       order := 1 })] }

theorem getOrderedBondAngle_molC5 :
    getOrderedBondAngle ⟨"o", 0, 0, "C"⟩ molC5 = 4 * Real.pi / 3 := by
  unfold getOrderedBondAngle
  rw [show (values molC5.bonds).filter (fun bond =>
      bond.beginAtomId == (⟨"o", 0, 0, "C"⟩ : Atom).id ||
      bond.endAtomId == (⟨"o", 0, 0, "C"⟩ : Atom).id) =
    [(⟨"g1", "o", "b", 1⟩ : Bond), ⟨"g2", "o", "c", 1⟩] from rfl]
  dsimp only
  rw [show List.lookup (if (⟨"g1", "o", "b", 1⟩ : Bond).beginAtomId ==
      (⟨"o", 0, 0, "C"⟩ : Atom).id then (⟨"g1", "o", "b", 1⟩ : Bond).endAtomId
      else (⟨"g1", "o", "b", 1⟩ : Bond).beginAtomId) molC5.atoms =
    some ⟨"b", 40, 0, "C"⟩ from rfl]
  dsimp only
  rw [if_neg (by norm_num)]
  rw [show ((0 : ℝ) - 0) = 0 from by norm_num,
    show ((40 : ℝ) - 0) = 40 from by norm_num,
    atan2_zero_of_pos (by norm_num : (0 : ℝ) ≤ 40)]
  rw [show ([0, 120, 240, 60].getD
    ([(⟨"g2", "o", "c", 1⟩ : Bond)].length + 1) 0 : ℕ) = 240 from rfl]
  unfold degToRad
  push_cast
  ring

theorem connectedBondAngles_molC5 :
    connectedBondAngles ⟨"o", 0, 0, "C"⟩ molC5 = [0, -(Real.pi / 2)] := by
  unfold connectedBondAngles
  rw [show (values molC5.bonds).filter (fun bond =>
      bond.beginAtomId == (⟨"o", 0, 0, "C"⟩ : Atom).id ||
      bond.endAtomId == (⟨"o", 0, 0, "C"⟩ : Atom).id) =
    [(⟨"g1", "o", "b", 1⟩ : Bond), ⟨"g2", "o", "c", 1⟩] from rfl]
  rw [List.map_cons, List.map_cons, List.map_nil]
  congr 1
  · show atan2 ((0 : ℝ) - 0) ((40 : ℝ) - 0) = 0
    rw [show ((0 : ℝ) - 0) = 0 from by norm_num,
      show ((40 : ℝ) - 0) = 40 from by norm_num]
    exact atan2_zero_of_pos (by norm_num)
  congr 1
  show atan2 ((-40 : ℝ) - 0) ((0 : ℝ) - 0) = -(Real.pi / 2)
  rw [show ((-40 : ℝ) - 0) = -40 from by norm_num,
    show ((0 : ℝ) - 0) = 0 from by norm_num]
  exact atan2_down (by norm_num)

/-- C5 counterexample: at the explicit two-bond input `molC5` the angle
the code returns (4π/3) has minimum angular distance π/6 to the existing
bond directions, strictly beaten by the candidate angle 3π/4 (distance
3π/4) — so the returned angle does not maximize the minimum angular
distance. -/
theorem C5_counterexample :
    minAngularDistance (getOrderedBondAngle ⟨"o", 0, 0, "C"⟩ molC5)
        (connectedBondAngles ⟨"o", 0, 0, "C"⟩ molC5) <
      minAngularDistance (3 * Real.pi / 4)
        (connectedBondAngles ⟨"o", 0, 0, "C"⟩ molC5) := by
  have hpi := Real.pi_pos
  rw [getOrderedBondAngle_molC5, connectedBondAngles_molC5]
  have d1 : angularDistance (4 * Real.pi / 3) 0 = 2 * Real.pi / 3 := by
    rw [angularDistance_eq (θ := -(2 * Real.pi / 3))
      (by rw [show 4 * Real.pi / 3 - 0 = -(2 * Real.pi / 3) + 2 * Real.pi
          by ring, Real.sin_add_two_pi])
      (by rw [show 4 * Real.pi / 3 - 0 = -(2 * Real.pi / 3) + 2 * Real.pi
          by ring, Real.cos_add_two_pi])
      ⟨by linarith, by linarith⟩]
    rw [abs_neg, abs_of_nonneg (by linarith)]
  have d2 : angularDistance (4 * Real.pi / 3) (-(Real.pi / 2)) =
      Real.pi / 6 := by
    rw [angularDistance_eq (θ := -(Real.pi / 6))
      (by rw [show 4 * Real.pi / 3 - -(Real.pi / 2) =
          -(Real.pi / 6) + 2 * Real.pi by ring, Real.sin_add_two_pi])
      (by rw [show 4 * Real.pi / 3 - -(Real.pi / 2) =
          -(Real.pi / 6) + 2 * Real.pi by ring, Real.cos_add_two_pi])
      ⟨by linarith, by linarith⟩]
    rw [abs_neg, abs_of_nonneg (by linarith)]
  have d3 : angularDistance (3 * Real.pi / 4) 0 = 3 * Real.pi / 4 := by
    rw [angularDistance_eq (θ := 3 * Real.pi / 4)
      (by rw [show 3 * Real.pi / 4 - 0 = 3 * Real.pi / 4 by ring])
      (by rw [show 3 * Real.pi / 4 - 0 = 3 * Real.pi / 4 by ring])
      ⟨by linarith, by linarith⟩]
    rw [abs_of_nonneg (by linarith)]
  have d4 : angularDistance (3 * Real.pi / 4) (-(Real.pi / 2)) =
      3 * Real.pi / 4 := by
    rw [angularDistance_eq (θ := -(3 * Real.pi / 4))
      (by rw [show 3 * Real.pi / 4 - -(Real.pi / 2) =
          -(3 * Real.pi / 4) + 2 * Real.pi by ring, Real.sin_add_two_pi])
      (by rw [show 3 * Real.pi / 4 - -(Real.pi / 2) =
          -(3 * Real.pi / 4) + 2 * Real.pi by ring, Real.cos_add_two_pi])
      ⟨by linarith, by linarith⟩]
    rw [abs_neg, abs_of_nonneg (by linarith)]
  unfold minAngularDistance
  simp only [List.map_cons, List.map_nil, List.foldr_cons, List.foldr_nil]
  rw [d1, d2, d3, d4]
  rw [min_eq_left (by linarith : Real.pi / 6 ≤ Real.pi),
    min_eq_right (by linarith : Real.pi / 6 ≤ 2 * Real.pi / 3),
    min_eq_left (by linarith : 3 * Real.pi / 4 ≤ Real.pi),
    min_eq_left (le_refl (3 * Real.pi / 4))]
  linarith

/-- C5 (amended): for an origin atom with existing bonds the growth angle
is determined solely by the direction of the first connected bond and the
number of connected bonds (first direction plus a fixed per-count offset);
in particular, for two or more bonds it ignores the directions of all
other bonds and therefore does not in general maximize the minimum
angular distance to them. -/
theorem C5_angle_depends_only_on_first_bond
    (atom1 atom2 : Atom) (m1 m2 : Molecule) (b1 b2 : Bond)
    (r1 r2 : List Bond) (o1 o2 : Atom)
    (hf1 : (values m1.bonds).filter (fun bond =>
      bond.beginAtomId == atom1.id || bond.endAtomId == atom1.id) = b1 :: r1)
    (hf2 : (values m2.bonds).filter (fun bond =>
      bond.beginAtomId == atom2.id || bond.endAtomId == atom2.id) = b2 :: r2)
    (hl1 : List.lookup (if b1.beginAtomId == atom1.id
      then b1.endAtomId else b1.beginAtomId) m1.atoms = some o1)
    (hl2 : List.lookup (if b2.beginAtomId == atom2.id
      then b2.endAtomId else b2.beginAtomId) m2.atoms = some o2)
    (hangle : atan2 (o1.y - atom1.y) (o1.x - atom1.x) =
      atan2 (o2.y - atom2.y) (o2.x - atom2.x))
    (hlen : r1.length = r2.length) :
    getOrderedBondAngle atom1 m1 = getOrderedBondAngle atom2 m2 := by
  unfold getOrderedBondAngle
  rw [hf1, hf2]
  dsimp only
  rw [hl1, hl2]
  dsimp only
  rw [hangle, hlen]

/-- Variant of `molC5` whose second bond points the opposite way (towards
(0, 40)); only the second bond's direction differs. -/
noncomputable def molC5b : Molecule :=
  { atoms := [("o", { id := "o", x := 0, y := 0, element := "C" }),
              ("b", { id := "b", x := 40, y := 0, element := "C" }),
              ("c", { id := "c", x := 0, y := 40, element := "C" })]
    bonds := [("g1", { id := "g1", beginAtomId := "o", endAtomId := "b",
                       order := 1 }),
              ("g2", { id := "g2", beginAtomId := "o", endAtomId := "c",
                       order := 1 })] }

/-- C5 witness: the two concrete molecules differ in their second bond's
direction yet get the same growth angle. -/
theorem C5_witness :
    getOrderedBondAngle ⟨"o", 0, 0, "C"⟩ molC5 =
      getOrderedBondAngle ⟨"o", 0, 0, "C"⟩ molC5b := by
  exact C5_angle_depends_only_on_first_bond
    ⟨"o", 0, 0, "C"⟩ ⟨"o", 0, 0, "C"⟩ molC5 molC5b
    ⟨"g1", "o", "b", 1⟩ ⟨"g1", "o", "b", 1⟩
    [⟨"g2", "o", "c", 1⟩] [⟨"g2", "o", "c", 1⟩]
    ⟨"b", 40, 0, "C"⟩ ⟨"b", 40, 0, "C"⟩
    rfl rfl rfl rfl rfl rfl

end Illustrious
